import Mathlib

/-!
Verification of the file-ingestion pipeline of the ISDB benchmark
(`read_file.c`, `crc64_simple.c`).

The C sources are shallowly embedded: bytes are `Nat` values (masked with
`&&& 0xFF` exactly where the C code masks), 64-bit words are `Nat` (every
operation used by the code — right shift, bitwise and, bitwise xor — maps
values below `2 ^ 64` to values below `2 ^ 64`, so no modular reduction is
ever needed), buffers are `List Nat`, and the shared `BufferQueue` of
`read_file.c` is an explicit state record.  Each mutex-protected critical
section of the C code becomes a pure state-transition function; the
semaphore posts a section performs are returned as explicit Boolean fields
of its result so that signalling behaviour can be reasoned about.
-/

namespace ISDB

/-- `#define BLOCK_SIZE (16 * 1024 * 1024)` from read_file.c. -/
def BLOCK_SIZE : Nat := 16 * 1024 * 1024

/-- `#define MAX_QUEUE_SIZE 16` from read_file.c. -/
def MAX_QUEUE_SIZE : Nat := 16

/-- `#define NUM_READERS 4` from read_file.c. -/
def NUM_READERS : Nat := 4

/-- `#define NUM_CONSUMERS 4` from read_file.c. -/
def NUM_CONSUMERS : Nat := 4

/-- `#define CRC64_POLY_ECMA 0x42F0E1EBA9EA3693ULL` from crc64_simple.h. -/
def CRC64_POLY_ECMA : Nat := 0x42F0E1EBA9EA3693

/-- One iteration of the inner loop of `crc64_init` (crc64_simple.c):
`if (crc & 1) crc = (crc >> 1) ^ poly; else crc >>= 1;`. -/
def crc64_round (crc : Nat) : Nat :=
  if crc &&& 1 = 1 then (crc >>> 1) ^^^ CRC64_POLY_ECMA else crc >>> 1

/-- The inner `for (j = 0; j < 8; j++)` loop of `crc64_init`, iterated
`j` times. -/
def crc64_rounds : Nat → Nat → Nat
  | 0, crc => crc
  | j + 1, crc => crc64_rounds j (crc64_round crc)

/-- Entry `i` of the lookup table built by `crc64_init` (crc64_simple.c):
start from `crc = i` and apply eight shift/xor rounds. -/
def crc64_table (i : Nat) : Nat := crc64_rounds 8 i

/-- `crc64_update` (crc64_simple.c): fold each byte through the table with
`crc = crc64_table[(crc ^ data[i]) & 0xFF] ^ (crc >> 8)`. -/
def crc64_update (crc : Nat) (data : List Nat) : Nat :=
  data.foldl (fun c b => crc64_table ((c ^^^ b) &&& 0xFF) ^^^ (c >>> 8)) crc

/-- `crc64_compute` (crc64_simple.c): `crc64_update(0, data, len)`. -/
def crc64_compute (data : List Nat) : Nat := crc64_update 0 data

/-- The accumulator's combining operator: `*hash_xor ^= block_hash`
(`process_block_xor`, read_file.c line 136) and
`global_hash_xor ^= block_hash` (`process_buffer_data`, line 297). -/
def combine (a b : Nat) : Nat := a ^^^ b

/-- Folding a list of per-block digests into the accumulator, which starts
from `0` (`global_hash_xor = 0`, read_file.c line 328). -/
def accumulate (digests : List Nat) : Nat := digests.foldl combine 0

theorem combine_comm (a b : Nat) : combine a b = combine b a :=
  Nat.xor_comm a b

theorem combine_assoc (a b c : Nat) :
    combine (combine a b) c = combine a (combine b c) :=
  Nat.xor_assoc a b c

theorem combine_self (d : Nat) : combine d d = 0 :=
  Nat.xor_self d

theorem foldl_combine_perm {l₁ l₂ : List Nat} (h : l₁.Perm l₂) :
    ∀ a : Nat, l₁.foldl combine a = l₂.foldl combine a := by
  induction h with
  | nil => intro a; rfl
  | cons x _ ih =>
      intro a
      simp only [List.foldl_cons]
      exact ih (combine a x)
  | swap x y l =>
      intro a
      simp only [List.foldl_cons]
      have : combine (combine a y) x = combine (combine a x) y := by
        rw [combine_assoc, combine_assoc, combine_comm y x]
      rw [this]
  | trans _ _ ih₁ ih₂ =>
      intro a
      exact (ih₁ a).trans (ih₂ a)

/-- C1: folding the per-block CRC64 digests of any finite collection of
blocks into the accumulator by XOR, starting from 0, gives the same final
digest under every permutation of the folding order; the combining
operator is commutative, associative, and self-inverse with identity 0. -/
theorem xor_accumulation_order_independent
    (blocks blocks' : List (List Nat)) (h : blocks.Perm blocks') :
    accumulate (blocks.map crc64_compute) = accumulate (blocks'.map crc64_compute)
      ∧ (∀ a b : Nat, combine a b = combine b a)
      ∧ (∀ a b c : Nat, combine (combine a b) c = combine a (combine b c))
      ∧ (∀ d : Nat, combine d d = 0) :=
  ⟨foldl_combine_perm (h.map crc64_compute) 0,
   combine_comm, combine_assoc, combine_self⟩

/-- Witness for C1 at the concrete block collections `[[1], [2]]` and
`[[2], [1]]`. -/
theorem xor_accumulation_order_independent_witness :
    accumulate ([[1], [2]].map crc64_compute)
        = accumulate ([[2], [1]].map crc64_compute)
      ∧ (∀ a b : Nat, combine a b = combine b a)
      ∧ (∀ a b c : Nat, combine (combine a b) c = combine a (combine b c))
      ∧ (∀ d : Nat, combine d d = 0) :=
  xor_accumulation_order_independent [[1], [2]] [[2], [1]] (by decide)

/-- C6: `crc64_compute` of the empty byte range is 0; on any data it is
exactly the byte-by-byte fold of the table recurrence
`crc = table[(crc XOR byte) AND 0xFF] XOR (crc >> 8)` starting from 0,
where each table entry is the 8-round shift/xor construction from the
ECMA-182 polynomial applied to the index; and the digest is a pure
function of byte content alone — chunking a buffer arbitrarily and
updating incrementally yields the digest of the concatenation. -/
theorem crc64_compute_spec :
    crc64_compute [] = 0
      ∧ (∀ data : List Nat,
          crc64_compute data
            = data.foldl
                (fun crc b => crc64_table ((crc ^^^ b) &&& 0xFF) ^^^ (crc >>> 8)) 0)
      ∧ (∀ i : Nat, crc64_table i = crc64_rounds 8 i)
      ∧ (∀ a b : List Nat, crc64_update (crc64_update 0 a) b = crc64_compute (a ++ b)) := by
  refine ⟨rfl, fun _ => rfl, fun _ => rfl, fun a b => ?_⟩
  simp [crc64_compute, crc64_update, List.foldl_append]

/-- The shared `BufferQueue` of read_file.c (lines 46-58).  The linked list
`head`/`tail` is represented as the list `buffers` (head first); `count`
mirrors the separately maintained `count` field.  The two semaphores are
not part of the mutable record: each operation below models the critical
section that runs after any `sem_wait` it performs, and reports the
`sem_post` calls of that path as Boolean fields of its result. -/
structure BufferQueue where
  buffers : List (List Nat)
  count : Nat
  reading_done : Bool
  active_readers : Nat
  total_blocks : Nat
  next_block : Nat
  file_size : Nat
deriving DecidableEq, Repr

/-- `init_buffer_queue` (read_file.c lines 194-206): empty list, zero
count, flags cleared. -/
def init_buffer_queue : BufferQueue :=
  { buffers := [], count := 0, reading_done := false, active_readers := 0,
    total_blocks := 0, next_block := 0, file_size := 0 }

/-- Result of `enqueue_buffer`: the C return value, the queue state after
the call, and which semaphores the taken path posted. -/
structure EnqueueResult where
  retval : Nat
  queue : BufferQueue
  empty_slots_post : Bool
  full_slots_post : Bool
deriving DecidableEq, Repr

/-- `enqueue_buffer` (read_file.c lines 222-257), modelling the body after
`sem_wait(&empty_slots)` has reserved a capacity slot.  The two `malloc`
outcomes are the parameters `node_alloc_ok` (the `BufferNode`) and
`data_alloc_ok` (the data copy).  On either failure the code unlocks,
re-posts `empty_slots` and returns 0 without touching `head`, `tail` or
`count`; on success it appends the copied data, increments `count` and
posts `full_slots`. -/
def enqueue_buffer (q : BufferQueue) (data : List Nat)
    (node_alloc_ok data_alloc_ok : Bool) : EnqueueResult :=
  if !node_alloc_ok then
    { retval := 0, queue := q, empty_slots_post := true, full_slots_post := false }
  else if !data_alloc_ok then
    { retval := 0, queue := q, empty_slots_post := true, full_slots_post := false }
  else
    { retval := 1,
      queue := { q with buffers := q.buffers ++ [data], count := q.count + 1 },
      empty_slots_post := false, full_slots_post := true }

/-- Result of `dequeue_buffer`: the dequeued data (`none` models the C
return value 0 with no data), the queue state after the call, and which
semaphores the taken path posted. -/
structure DequeueResult where
  retval : Option (List Nat)
  queue : BufferQueue
  empty_slots_post : Bool
  full_slots_post : Bool
deriving DecidableEq, Repr

/-- `dequeue_buffer` (read_file.c lines 260-289), modelling the body after
`sem_wait(&full_slots)`.  With `count == 0` it computes
`done = reading_done && active_readers == 0`, returns 0, and re-posts
`full_slots` only when `!done`; otherwise it pops the head node,
decrements `count` and posts `empty_slots`. -/
def dequeue_buffer (q : BufferQueue) : DequeueResult :=
  if q.count = 0 then
    let done := q.reading_done && q.active_readers == 0
    { retval := none, queue := q,
      empty_slots_post := false, full_slots_post := !done }
  else
    { retval := q.buffers.head?,
      queue := { q with buffers := q.buffers.tail, count := q.count - 1 },
      empty_slots_post := true, full_slots_post := false }

/-- The processor-termination test of `process_buffers` (read_file.c line
510): `reading_done && active_readers == 0 && count == 0`. -/
def processor_done (q : BufferQueue) : Bool :=
  q.reading_done && q.active_readers == 0 && q.count == 0

/-- The reader's exit path on `fopen` failure (read_file.c lines 425-427):
lock, `active_readers--`, unlock — and nothing else. -/
def reader_exit_on_open_failure (q : BufferQueue) : BufferQueue :=
  { q with active_readers := q.active_readers - 1 }

/-- The reader's exit path on buffer `malloc` failure (read_file.c lines
438-440): lock, `active_readers--`, unlock — and nothing else. -/
def reader_exit_on_alloc_failure (q : BufferQueue) : BufferQueue :=
  { q with active_readers := q.active_readers - 1 }

/-- The reader's normal-completion exit (read_file.c lines 490-495):
`active_readers--; if (active_readers == 0) reading_done = 1;`. -/
def mark_reader_done (q : BufferQueue) : BufferQueue :=
  let q' := { q with active_readers := q.active_readers - 1 }
  if q'.active_readers = 0 then { q' with reading_done := true } else q'

/-- C2 counterexample: on the permanently drained queue (`reading_done`
true, `active_readers` 0, `count` 0) `dequeue_buffer` returns the empty
result but does NOT re-post the full-slots semaphore, contradicting the
claim that it re-signals availability on drain. -/
theorem dequeue_drained_does_not_resignal :
    (init_buffer_queue.reading_done = false)
      ∧ (dequeue_buffer
          { init_buffer_queue with reading_done := true }).retval = none
      ∧ (dequeue_buffer
          { init_buffer_queue with reading_done := true }).full_slots_post = false := by
  refine ⟨rfl, ?_, ?_⟩ <;> rfl

/-- C2 amended: whenever `dequeue_buffer` runs with `count = 0` it returns
the empty result and leaves the queue unchanged, and it re-posts the
full-slots semaphore exactly when the queue is NOT permanently drained
(i.e. when `reading_done && active_readers == 0` is false); on permanent
drain it returns without re-signalling. -/
theorem dequeue_empty_behaviour (q : BufferQueue) (h : q.count = 0) :
    (dequeue_buffer q).retval = none
      ∧ (dequeue_buffer q).queue = q
      ∧ (dequeue_buffer q).full_slots_post
          = !(q.reading_done && q.active_readers == 0)
      ∧ (dequeue_buffer q).empty_slots_post = false := by
  simp [dequeue_buffer, h]

/-- Witness for C2's amended theorem on the concrete drained queue. -/
theorem dequeue_empty_behaviour_witness :
    (dequeue_buffer { init_buffer_queue with reading_done := true }).retval = none
      ∧ (dequeue_buffer { init_buffer_queue with reading_done := true }).queue
          = { init_buffer_queue with reading_done := true }
      ∧ (dequeue_buffer { init_buffer_queue with reading_done := true }).full_slots_post
          = !(({ init_buffer_queue with reading_done := true } : BufferQueue).reading_done
              && ({ init_buffer_queue with reading_done := true } : BufferQueue).active_readers == 0)
      ∧ (dequeue_buffer { init_buffer_queue with reading_done := true }).empty_slots_post
          = false :=
  dequeue_empty_behaviour { init_buffer_queue with reading_done := true } rfl

/-- C3: evaluation of the three reader exit paths at the state where the
exiting reader is the last active one (`active_readers = 1`).  The
open-failure and alloc-failure paths decrement the count to zero but leave
`reading_done` false, so the processor-termination condition stays false
forever; only the normal-completion path sets `reading_done`.  This
contradicts the claim (and the spec's stated intent) that every exit path
triggers the completion protocol. -/
theorem reader_failure_exit_leaves_reading_done_false :
    (reader_exit_on_open_failure
        { init_buffer_queue with active_readers := 1 }).active_readers = 0
      ∧ (reader_exit_on_open_failure
          { init_buffer_queue with active_readers := 1 }).reading_done = false
      ∧ processor_done (reader_exit_on_open_failure
          { init_buffer_queue with active_readers := 1 }) = false
      ∧ (reader_exit_on_alloc_failure
          { init_buffer_queue with active_readers := 1 }).active_readers = 0
      ∧ (reader_exit_on_alloc_failure
          { init_buffer_queue with active_readers := 1 }).reading_done = false
      ∧ processor_done (reader_exit_on_alloc_failure
          { init_buffer_queue with active_readers := 1 }) = false
      ∧ (mark_reader_done
          { init_buffer_queue with active_readers := 1 }).reading_done = true
      ∧ processor_done (mark_reader_done
          { init_buffer_queue with active_readers := 1 }) = true := by
  refine ⟨rfl, rfl, rfl, rfl, rfl, rfl, ?_, ?_⟩ <;> rfl

/-- C9: if allocation of the queue node or of its data buffer fails during
`enqueue_buffer`, the operation re-posts the reserved empty-slots capacity
token, returns 0, posts no full-slots signal, and leaves the queue state
(buffers, count, and every other field) exactly as before the call. -/
theorem enqueue_alloc_failure_atomic (q : BufferQueue) (data : List Nat)
    (node_alloc_ok data_alloc_ok : Bool)
    (h : node_alloc_ok = false ∨ data_alloc_ok = false) :
    (enqueue_buffer q data node_alloc_ok data_alloc_ok).retval = 0
      ∧ (enqueue_buffer q data node_alloc_ok data_alloc_ok).queue = q
      ∧ (enqueue_buffer q data node_alloc_ok data_alloc_ok).empty_slots_post = true
      ∧ (enqueue_buffer q data node_alloc_ok data_alloc_ok).full_slots_post = false := by
  rcases h with h | h
  · subst h; simp [enqueue_buffer]
  · subst h; cases node_alloc_ok <;> simp [enqueue_buffer]

/-- Witness for C9 with a failing data allocation on the empty queue. -/
theorem enqueue_alloc_failure_atomic_witness :
    (enqueue_buffer init_buffer_queue [7] true false).retval = 0
      ∧ (enqueue_buffer init_buffer_queue [7] true false).queue = init_buffer_queue
      ∧ (enqueue_buffer init_buffer_queue [7] true false).empty_slots_post = true
      ∧ (enqueue_buffer init_buffer_queue [7] true false).full_slots_post = false :=
  enqueue_alloc_failure_atomic init_buffer_queue [7] true false (Or.inr rfl)

/-- The block-index reservation inlined in `reader_thread` (read_file.c
lines 450-457): under the mutex, if `next_block >= total_blocks` return
nothing, else return `next_block` and increment it. -/
def reserveNextBlockIndex (q : BufferQueue) : Option Nat × BufferQueue :=
  if q.total_blocks ≤ q.next_block then (none, q)
  else (some q.next_block, { q with next_block := q.next_block + 1 })

/-- The global sequence of up to `n` reservation calls made by the
readers, in the order the mutex serialises them: collects each returned
index until the counter is exhausted. -/
def reserveTrace : BufferQueue → Nat → List Nat × BufferQueue
  | q, 0 => ([], q)
  | q, n + 1 =>
    match reserveNextBlockIndex q with
    | (none, q') => ([], q')
    | (some i, q') =>
      let r := reserveTrace q' n
      (i :: r.1, r.2)

theorem reserveTrace_spec (n : Nat) :
    ∀ q : BufferQueue, q.next_block ≤ q.total_blocks →
      q.total_blocks - q.next_block ≤ n →
      reserveTrace q n
        = (List.range' q.next_block (q.total_blocks - q.next_block),
           { q with next_block := q.total_blocks }) := by
  induction n with
  | zero =>
    rintro ⟨bufs, c, rd, ar, tb, nb, fs⟩ h1 h2
    dsimp only at h1 h2 ⊢
    have h3 : tb = nb := by omega
    subst h3
    simp [reserveTrace]
  | succ n ih =>
    rintro ⟨bufs, c, rd, ar, tb, nb, fs⟩ h1 h2
    dsimp only at h1 h2 ⊢
    by_cases h : tb ≤ nb
    · have h3 : tb = nb := by omega
      subst h3
      simp [reserveTrace, reserveNextBlockIndex]
    · have hstep : reserveNextBlockIndex ⟨bufs, c, rd, ar, tb, nb, fs⟩
          = (some nb, ⟨bufs, c, rd, ar, tb, nb + 1, fs⟩) := by
        simp [reserveNextBlockIndex, h]
      have ih' := ih ⟨bufs, c, rd, ar, tb, nb + 1, fs⟩ (by dsimp only; omega)
        (by dsimp only; omega)
      dsimp only at ih'
      have hn : tb - nb = (tb - (nb + 1)) + 1 := by omega
      simp only [reserveTrace, hstep, ih', hn, List.range'_succ]

/-- C8: starting from a fresh counter (`next_block = 0`), any `n ≥
totalBlocks` successive reservation calls return exactly the indices
`0, 1, ..., totalBlocks - 1` — every index exactly once, strictly
increasing, never repeated — and every call after exhaustion returns the
empty result. -/
theorem reserve_partition_complete (q : BufferQueue) (n : Nat)
    (h0 : q.next_block = 0) (hn : q.total_blocks ≤ n) :
    (reserveTrace q n).1 = List.range q.total_blocks
      ∧ (∀ i, i < q.total_blocks → ((reserveTrace q n).1).count i = 1)
      ∧ ((reserveTrace q n).1).Pairwise (· < ·)
      ∧ (reserveTrace q n).2.next_block = q.total_blocks
      ∧ (reserveNextBlockIndex (reserveTrace q n).2).1 = none := by
  have hs := reserveTrace_spec n q (by omega) (by omega)
  rw [h0] at hs
  rw [hs]
  refine ⟨?_, ?_, ?_, ?_, ?_⟩
  · simpa using (List.range_eq_range' q.total_blocks).symm
  · intro i hi
    simp only [Nat.sub_zero, ← List.range_eq_range']
    exact List.count_eq_one_of_mem (List.nodup_range _) (List.mem_range.mpr hi)
  · simp only [Nat.sub_zero, ← List.range_eq_range']
    exact List.pairwise_lt_range _
  · rfl
  · simp [reserveNextBlockIndex]

/-- Witness for C8 with three total blocks and three reservation calls. -/
theorem reserve_partition_complete_witness :
    (reserveTrace { init_buffer_queue with total_blocks := 3 } 3).1
        = List.range ({ init_buffer_queue with total_blocks := 3 } : BufferQueue).total_blocks
      ∧ (∀ i, i < ({ init_buffer_queue with total_blocks := 3 } : BufferQueue).total_blocks →
          ((reserveTrace { init_buffer_queue with total_blocks := 3 } 3).1).count i = 1)
      ∧ ((reserveTrace { init_buffer_queue with total_blocks := 3 } 3).1).Pairwise (· < ·)
      ∧ (reserveTrace { init_buffer_queue with total_blocks := 3 } 3).2.next_block
          = ({ init_buffer_queue with total_blocks := 3 } : BufferQueue).total_blocks
      ∧ (reserveNextBlockIndex
          (reserveTrace { init_buffer_queue with total_blocks := 3 } 3).2).1 = none :=
  reserve_partition_complete { init_buffer_queue with total_blocks := 3 } 3 rfl
    (by decide)

/-- The `bytes_to_read` computation of `reader_thread` (read_file.c lines
460-463): `BLOCK_SIZE`, truncated to `file_size - offset` for the final
block. -/
def bytes_to_read_at (file_size offset : Nat) : Nat :=
  if file_size < offset + BLOCK_SIZE then file_size - offset else BLOCK_SIZE

/-- How one pass of the `while (1)` claiming loop of `reader_thread`
(read_file.c lines 449-480) ends. -/
inductive ReaderOutcome where
  | exitNoBlocks
  | seekFailed
  | endOfInput
  | enqueued (block_index offset bytes_read : Nat)
deriving DecidableEq, Repr

/-- One pass of the claiming loop of `reader_thread` (read_file.c lines
449-480).  `seek_ok` models the `fseek` return test and `fread_bytes` the
value returned by `fread` for this block (at most the requested
`bytes_to_read`).  The code breaks out of the loop only when no block
index remains, when `fseek` fails, or when `fread` returns exactly zero
bytes; any nonzero byte count — short or not — is enqueued and the loop
continues. -/
def reader_iteration (file : List Nat) (q : BufferQueue)
    (seek_ok : Bool) (fread_bytes : Nat) : ReaderOutcome × BufferQueue :=
  match reserveNextBlockIndex q with
  | (none, q') => (ReaderOutcome.exitNoBlocks, q')
  | (some block_index, q') =>
    let offset := block_index * BLOCK_SIZE
    if !seek_ok then (ReaderOutcome.seekFailed, q')
    else if fread_bytes = 0 then (ReaderOutcome.endOfInput, q')
    else
      (ReaderOutcome.enqueued block_index offset fread_bytes,
       (enqueue_buffer q' ((file.drop offset).take fread_bytes) true true).queue)

/-- C4 counterexample: on a 5-byte single-block file, a read that returns
1 byte of the 5 requested (a short, nonzero read) does NOT end the
claiming loop — the short buffer is enqueued and the loop continues —
contradicting the claim that any short read is treated as end of input. -/
theorem short_read_does_not_end_loop :
    1 < bytes_to_read_at 5 0
      ∧ (reader_iteration [10, 20, 30, 40, 50]
            { init_buffer_queue with total_blocks := 1, file_size := 5 } true 1).1
          = ReaderOutcome.enqueued 0 0 1
      ∧ (reader_iteration [10, 20, 30, 40, 50]
            { init_buffer_queue with total_blocks := 1, file_size := 5 } true 1).1
          ≠ ReaderOutcome.endOfInput := by
  refine ⟨by decide, rfl, by decide⟩

/-- C4 amended: the reader's claiming loop ends on a read only when the
read returns exactly zero bytes; a successful claim whose read returns any
nonzero byte count — even fewer than requested — is enqueued with the
returned size and the loop proceeds to the next claimed index. -/
theorem reader_loop_breaks_only_on_zero_read (file : List Nat)
    (q : BufferQueue) (fread_bytes : Nat)
    (hclaim : q.next_block < q.total_blocks) :
    (reader_iteration file q true 0).1 = ReaderOutcome.endOfInput
      ∧ (0 < fread_bytes →
          (reader_iteration file q true fread_bytes).1
            = ReaderOutcome.enqueued q.next_block (q.next_block * BLOCK_SIZE) fread_bytes)
      ∧ (reader_iteration file q true fread_bytes).2.next_block = q.next_block + 1 := by
  have hstep : reserveNextBlockIndex q
      = (some q.next_block, { q with next_block := q.next_block + 1 }) := by
    simp [reserveNextBlockIndex]
    omega
  refine ⟨?_, ?_, ?_⟩
  · simp [reader_iteration, hstep]
  · intro hpos
    simp [reader_iteration, hstep, Nat.pos_iff_ne_zero.mp hpos]
  · by_cases hz : fread_bytes = 0
    · simp [reader_iteration, hstep, hz]
    · simp [reader_iteration, hstep, hz, enqueue_buffer]

/-- Witness for C4's amended theorem on a 3-byte single-block file with a
short 2-byte read. -/
theorem reader_loop_breaks_only_on_zero_read_witness :
    (reader_iteration [1, 2, 3]
          { init_buffer_queue with total_blocks := 1, file_size := 3 } true 0).1
        = ReaderOutcome.endOfInput
      ∧ (0 < 2 →
          (reader_iteration [1, 2, 3]
              { init_buffer_queue with total_blocks := 1, file_size := 3 } true 2).1
            = ReaderOutcome.enqueued
                ({ init_buffer_queue with total_blocks := 1, file_size := 3 } : BufferQueue).next_block
                (({ init_buffer_queue with total_blocks := 1, file_size := 3 } : BufferQueue).next_block * BLOCK_SIZE)
                2)
      ∧ (reader_iteration [1, 2, 3]
            { init_buffer_queue with total_blocks := 1, file_size := 3 } true 2).2.next_block
          = ({ init_buffer_queue with total_blocks := 1, file_size := 3 } : BufferQueue).next_block + 1 :=
  reader_loop_breaks_only_on_zero_read [1, 2, 3]
    { init_buffer_queue with total_blocks := 1, file_size := 3 } 2 (by decide)

/-- `get_file_size` (read_file.c lines 89-114) on an openable file: stores
the byte length and returns success, except that a zero-length file makes
it return failure (0), so the caller returns early. -/
def get_file_size (file : List Nat) : Option Nat :=
  if file.length = 0 then none else some file.length

/-- `queue.total_blocks = (file_size + BLOCK_SIZE - 1) / BLOCK_SIZE`
(read_file.c line 330). -/
def total_blocks_of (file_size : Nat) : Nat :=
  (file_size + BLOCK_SIZE - 1) / BLOCK_SIZE

/-- The bytes actually read for block `i`: the reader seeks to
`i * BLOCK_SIZE` and reads `bytes_to_read` bytes there (read_file.c lines
459-468), which on a successful full read is this slice of the file. -/
def file_block (file : List Nat) (i : Nat) : List Nat :=
  (file.drop (i * BLOCK_SIZE)).take (bytes_to_read_at file.length (i * BLOCK_SIZE))

/-- The functional result of `async_sequential_read` (read_file.c lines
311-414): `none` when `get_file_size` fails (file unopenable or empty —
the function returns before starting the pipeline), otherwise the pair of
the total block count and the final `global_hash_xor`.  Under the run
conditions the claims address (every open, allocation and full read
succeeds), the readers enqueue exactly the blocks `file_block file i` for
`i < total_blocks`, each exactly once (theorem
`reserve_partition_complete`), each is processed exactly once, and since
the XOR fold is order-independent (theorem
`foldl_combine_perm`) the final digest is the index-order fold of
the per-block digests, whatever interleaving the threads take. -/
def async_sequential_read (file : List Nat) : Option (Nat × Nat) :=
  match get_file_size file with
  | none => none
  | some fs =>
    let tb := total_blocks_of fs
    some (tb, accumulate ((List.range tb).map fun i => crc64_compute (file_block file i)))

/-- C5 counterexample: for the empty file the run does NOT report zero
blocks and the identity digest — `get_file_size` fails on a 0-byte file
and `async_sequential_read` returns early with no report at all. -/
theorem empty_file_report_claim_false :
    async_sequential_read [] ≠ some (0, 0) := by
  decide

/-- C5 amended: for an empty input file (0 bytes) the async pipeline run
fails file-size validation and returns early: the pipeline never starts,
no block count and no digest are reported. -/
theorem empty_file_reports_nothing : async_sequential_read [] = none := rfl

theorem block_size_pos : 1 < BLOCK_SIZE := by norm_num [BLOCK_SIZE]

/-- C7: for any file of exactly `BLOCK_SIZE + 1` bytes, the computed total
block count is 2, the second claimed block starts at offset `BLOCK_SIZE`
and has length 1, and the reported digest is
`combine (digest block0) (digest block1)`, which by commutativity is the
same whichever processor folds which block first. -/
theorem block_plus_one_file_two_blocks (file : List Nat)
    (h : file.length = BLOCK_SIZE + 1) :
    total_blocks_of file.length = 2
      ∧ file_block file 0 = file.take BLOCK_SIZE
      ∧ file_block file 1 = file.drop BLOCK_SIZE
      ∧ (file_block file 1).length = 1
      ∧ async_sequential_read file
          = some (2, combine (crc64_compute (file.take BLOCK_SIZE))
              (crc64_compute (file.drop BLOCK_SIZE)))
      ∧ combine (crc64_compute (file.take BLOCK_SIZE))
            (crc64_compute (file.drop BLOCK_SIZE))
          = combine (crc64_compute (file.drop BLOCK_SIZE))
              (crc64_compute (file.take BLOCK_SIZE)) := by
  have hB := block_size_pos
  have htb : total_blocks_of (BLOCK_SIZE + 1) = 2 := by
    have h2 : BLOCK_SIZE + 1 + BLOCK_SIZE - 1 = 2 * BLOCK_SIZE := by omega
    rw [total_blocks_of, h2, Nat.mul_div_cancel 2 (by omega)]
  have hb0 : file_block file 0 = file.take BLOCK_SIZE := by
    rw [file_block, bytes_to_read_at, h]
    simp only [Nat.zero_mul, Nat.zero_add, List.drop_zero]
    rw [if_neg (by omega)]
  have hb1 : file_block file 1 = file.drop BLOCK_SIZE := by
    rw [file_block, bytes_to_read_at, h]
    simp only [Nat.one_mul]
    rw [if_pos (by omega)]
    have hlen : (file.drop BLOCK_SIZE).length = 1 := by
      rw [List.length_drop, h]; omega
    have : BLOCK_SIZE + 1 - BLOCK_SIZE = 1 := by omega
    rw [this, List.take_of_length_le (by omega)]
  have hlen1 : (file_block file 1).length = 1 := by
    rw [hb1, List.length_drop, h]; omega
  refine ⟨h ▸ htb, hb0, hb1, hlen1, ?_, combine_comm _ _⟩
  have hgf : get_file_size file = some (BLOCK_SIZE + 1) := by
    rw [get_file_size, h]
    rw [if_neg (by omega)]
  rw [async_sequential_read]
  rw [hgf]
  simp only [h, htb]
  have hrange : List.range 2 = [0, 1] := rfl
  rw [hrange]
  simp only [List.map_cons, List.map_nil, hb0, hb1]
  simp [accumulate, combine, Nat.zero_xor]

/-- Witness for C7 at the concrete all-zero file of `BLOCK_SIZE + 1`
bytes. -/
theorem block_plus_one_file_two_blocks_witness :
    total_blocks_of (List.replicate (BLOCK_SIZE + 1) 0).length = 2
      ∧ file_block (List.replicate (BLOCK_SIZE + 1) 0) 0
          = (List.replicate (BLOCK_SIZE + 1) 0).take BLOCK_SIZE
      ∧ file_block (List.replicate (BLOCK_SIZE + 1) 0) 1
          = (List.replicate (BLOCK_SIZE + 1) 0).drop BLOCK_SIZE
      ∧ (file_block (List.replicate (BLOCK_SIZE + 1) 0) 1).length = 1
      ∧ async_sequential_read (List.replicate (BLOCK_SIZE + 1) 0)
          = some (2, combine
              (crc64_compute ((List.replicate (BLOCK_SIZE + 1) 0).take BLOCK_SIZE))
              (crc64_compute ((List.replicate (BLOCK_SIZE + 1) 0).drop BLOCK_SIZE)))
      ∧ combine
            (crc64_compute ((List.replicate (BLOCK_SIZE + 1) 0).take BLOCK_SIZE))
            (crc64_compute ((List.replicate (BLOCK_SIZE + 1) 0).drop BLOCK_SIZE))
          = combine
              (crc64_compute ((List.replicate (BLOCK_SIZE + 1) 0).drop BLOCK_SIZE))
              (crc64_compute ((List.replicate (BLOCK_SIZE + 1) 0).take BLOCK_SIZE)) :=
  block_plus_one_file_two_blocks (List.replicate (BLOCK_SIZE + 1) 0)
    (List.length_replicate _ _)

/-- A diagnostic line the program prints, abstracted from the `printf`
calls gated by `verbosity` in read_file.c. -/
inductive TraceLine where
  | processedBuffer (size : Nat) (block_hash : Nat)
  | hashReport (hash : Nat)
deriving DecidableEq, Repr

/-- `process_buffer_data` (read_file.c lines 292-304) with its verbosity
gate: computes the block's CRC64, XORs it into the accumulator under the
hash mutex, and prints the per-block debug line only when
`verbosity >= 2`. -/
def process_buffer_data (verbosity : Nat) (global_hash_xor : Nat)
    (data : List Nat) : Nat × List TraceLine :=
  let block_hash := crc64_compute data
  (combine global_hash_xor block_hash,
   if 2 ≤ verbosity then [TraceLine.processedBuffer data.length block_hash] else [])

/-- `async_sequential_read` with its verbosity-gated output made explicit:
the same functional result as `async_sequential_read`, with every block
folded through `process_buffer_data` (which prints at `verbosity >= 2`)
and the final `Hash (XOR)` line printed at `verbosity >= 1` (read_file.c
lines 404-407). -/
def async_sequential_read_v (verbosity : Nat) (file : List Nat) :
    Option (Nat × Nat) × List TraceLine :=
  match get_file_size file with
  | none => (none, [])
  | some fs =>
    let tb := total_blocks_of fs
    let r := (List.range tb).foldl
      (fun acc i =>
        let s := process_buffer_data verbosity acc.1 (file_block file i)
        (s.1, acc.2 ++ s.2))
      (0, [])
    (some (tb, r.1),
     r.2 ++ if 1 ≤ verbosity then [TraceLine.hashReport r.1] else [])

theorem process_fold_fst (verbosity : Nat) (file : List Nat) :
    ∀ (l : List Nat) (a : Nat) (t : List TraceLine),
      (l.foldl
          (fun acc i =>
            let s := process_buffer_data verbosity acc.1 (file_block file i)
            (s.1, acc.2 ++ s.2))
          (a, t)).1
        = l.foldl (fun hsh i => combine hsh (crc64_compute (file_block file i))) a := by
  intro l
  induction l with
  | nil => intro a t; rfl
  | cons x xs ih =>
      intro a t
      simp only [List.foldl_cons]
      exact ih _ _

theorem async_v_result (verbosity : Nat) (file : List Nat) :
    (async_sequential_read_v verbosity file).1 = async_sequential_read file := by
  rw [async_sequential_read_v, async_sequential_read]
  cases get_file_size file with
  | none => rfl
  | some fs =>
    simp only []
    rw [process_fold_fst]
    rw [accumulate, List.foldl_map]

/-- C10: the computed hashes never depend on the verbosity level — the
accumulator update of `process_buffer_data` is the same function of the
data for every verbosity, and two async runs that differ only in
verbosity produce the identical (block count, final digest) result, equal
to the verbosity-free model; verbosity gates only the diagnostic trace
lines. -/
theorem digests_independent_of_verbosity (v v' : Nat) (file : List Nat)
    (global_hash_xor : Nat) (data : List Nat) :
    (process_buffer_data v global_hash_xor data).1
        = (process_buffer_data v' global_hash_xor data).1
      ∧ (async_sequential_read_v v file).1 = (async_sequential_read_v v' file).1
      ∧ (async_sequential_read_v v file).1 = async_sequential_read file :=
  ⟨rfl, (async_v_result v file).trans (async_v_result v' file).symm,
   async_v_result v file⟩

end ISDB
